import Mathlib

/-!
Verification of the linear-mcp-server core: the pipeline execution engine
(src/pipeline.ts), the tool dispatcher with its error normalization
(server file, EnhancedLinearServer), the metrics ring buffer
(src/metrics.ts), and the two argument-validator implementations
(src/enhanced-types.ts and the manual type-guard file).

Modelling conventions:
- JavaScript runtime values inspected by the validators are modelled by the
  inductive JsValue (null, undefined, booleans, numbers, strings, plain
  objects as association lists, arrays).
- A JavaScript throw is modelled by Except; the thrown value is either an
  Error object (with name, message, optional code and retryable properties)
  or a non-Error value remembered by its String conversion, which is all
  the catch blocks in the source ever observe.
- The external Linear API client is opaque in the source; it is a parameter
  (structure LinearClient) here.
- Wall-clock readings (Date.now) are parameters: the measured duration and
  the record timestamp are supplied by the environment.
- The pipeline engine is generic in the tool executor it is constructed
  with, exactly as the PipelineProcessor constructor is; the executor
  threads an abstract state (instantiated with the metrics log for the
  real server) so that statements about recorded metrics are expressible.
-/

namespace LinearMCP

/-! ## JavaScript value model -/

inductive JsValue where
  | vnull
  | vundefined
  | vbool (b : Bool)
  | vnum (n : Int)
  | vstr (s : String)
  | vobj (fields : List (String × JsValue))
  | varr (elems : List JsValue)

/-- The JavaScript typeof operator, restricted to the values modelled. -/
def jsTypeof : JsValue → String
  | .vnull => "object"
  | .vundefined => "undefined"
  | .vbool _ => "boolean"
  | .vnum _ => "number"
  | .vstr _ => "string"
  | .vobj _ => "object"
  | .varr _ => "object"

def isNull : JsValue → Bool
  | .vnull => true
  | _ => false

/-- The JavaScript `in` operator for the property names the guards test.
Arrays carry no such string-named own properties, so membership is false
on every non-object value. -/
def hasKey (v : JsValue) (k : String) : Bool :=
  match v with
  | .vobj fields => fields.any (fun p => p.1 == k)
  | _ => false

/-- Property access `v[k]`: undefined when the property is absent. -/
def getKey (v : JsValue) (k : String) : JsValue :=
  match v with
  | .vobj fields =>
    match fields.find? (fun p => p.1 == k) with
    | some p => p.2
    | none => .vundefined
  | _ => .vundefined

def isStringVal : JsValue → Bool
  | .vstr _ => true
  | _ => false

def isNumberVal : JsValue → Bool
  | .vnum _ => true
  | _ => false

/-! ## Manual type guards (the unnamed types file) -/

namespace ManualGuards

/-- Manual type guard for list-issues arguments, from the unnamed types
file: typeof object, non-null, and each of teamId / first is either
absent or of the matching typeof. -/
def isValidListIssuesArgs (args : JsValue) : Bool :=
  jsTypeof args == "object" &&
  !(isNull args) &&
  (!(hasKey args "teamId") || jsTypeof (getKey args "teamId") == "string") &&
  (!(hasKey args "first") || jsTypeof (getKey args "first") == "number")

/-- Manual type guard for issue-creation arguments, from the unnamed types
file: typeof object, non-null, title and teamId present with typeof
string. The optional fields are not examined at all. -/
def isValidIssueCreateArgs (args : JsValue) : Bool :=
  jsTypeof args == "object" &&
  !(isNull args) &&
  hasKey args "title" && jsTypeof (getKey args "title") == "string" &&
  hasKey args "teamId" && jsTypeof (getKey args "teamId") == "string"

end ManualGuards

/-! ## Zod-based validators (src/enhanced-types.ts) -/

namespace EnhancedTypes

/-- A zod optional field: valid when absent or undefined, otherwise the
inner check must hold. A field carrying a default behaves the same for
validity purposes. -/
def zodOptional (v : JsValue) (ok : JsValue → Bool) : Bool :=
  match v with
  | .vundefined => true
  | w => ok w

/-- safeParse success of ListIssuesInputSchema: a zod object (null, arrays
and primitives are rejected, unknown keys are allowed), teamId an optional
string, first an optional number (with a default). -/
def isValidListIssuesArgs (args : JsValue) : Bool :=
  match args with
  | .vobj _ =>
      zodOptional (getKey args "teamId") isStringVal &&
      zodOptional (getKey args "first") isNumberVal
  | _ => false

/-- safeParse success of CreateIssueInputSchema: a zod object with required
string fields title and teamId, optional string description and
assigneeId, optional number priority. -/
def isValidIssueCreateArgs (args : JsValue) : Bool :=
  match args with
  | .vobj _ =>
      isStringVal (getKey args "title") &&
      zodOptional (getKey args "description") isStringVal &&
      isStringVal (getKey args "teamId") &&
      zodOptional (getKey args "assigneeId") isStringVal &&
      zodOptional (getKey args "priority") isNumberVal
  | _ => false

end EnhancedTypes

/-! ## Thrown values and error normalization -/

/-- An Error object as observed by the catch blocks: its name, message,
and the optional code and retryable properties of the MCPError interface. -/
structure ErrObj where
  name : String
  message : String
  code : Option String
  retryable : Option Bool

/-- A thrown JavaScript value: an Error instance, or any other value of
which only the String conversion is ever used. -/
inductive Thrown where
  | errObj (e : ErrObj)
  | nonError (str : String)

/-- What `error instanceof Error ? error.message : String(error)` yields. -/
def thrownMessage : Thrown → String
  | .errObj e => e.message
  | .nonError s => s

/-- What `error instanceof Error && 'code' in error` exposes: the code
property when the thrown value is an Error carrying one. -/
def thrownCode : Thrown → Option String
  | .errObj e => e.code
  | .nonError _ => none

/-- What `error instanceof Error ? error.name : 'UnknownError'` yields. -/
def thrownErrorName : Thrown → String
  | .errObj e => e.name
  | .nonError _ => "UnknownError"

/-- getSuggestionsForError: the fixed code-to-suggestions lookup in the
server file, a switch over the error code. -/
def getSuggestionsForError (code : Option String) : List String :=
  if code = some "RATE_LIMIT" then
    ["Wait and retry later", "Reduce request frequency"]
  else if code = some "AUTHENTICATION_ERROR" then
    ["Check API key", "Verify Linear authentication"]
  else if code = some "NETWORK_ERROR" then
    ["Check network connection", "Verify Linear API status"]
  else
    ["Check input parameters", "Consult Linear API documentation"]

/-- The structured error payload serialized by the CallToolRequest handler
on its catch path (the details field, which echoes the thrown value
opaquely, is not modelled). -/
structure SerializedError where
  code : String
  message : String
  retryable : Bool
  suggestions : List String

/-- The catch branch of the CallToolRequest handler: message from the
thrown value, code from its code property defaulting to TOOL_ERROR,
retryable recomputed from that code (true exactly for RATE_LIMIT and
NETWORK_ERROR), suggestions from the fixed lookup. -/
def serializeError (err : Thrown) : SerializedError :=
  let message := thrownMessage err
  let code := (thrownCode err).getD "TOOL_ERROR"
  { code := code
    message := message
    retryable := code == "RATE_LIMIT" || code == "NETWORK_ERROR"
    suggestions := getSuggestionsForError (some code) }

/-! ## Metrics collector (src/metrics.ts) -/

/-- One recorded metric (interface MCPMetrics). -/
structure MCPMetrics where
  requestDuration : Nat
  toolName : String
  success : Bool
  errorType : Option String
  retryCount : Nat
  timestamp : Nat

/-- The argument of record: a metric without its timestamp. -/
structure MetricInput where
  requestDuration : Nat
  toolName : String
  success : Bool
  errorType : Option String
  retryCount : Nat

def maxMetricsCount : Nat := 1000

/-- Stamping the current time onto a metric input, as record does. -/
def stampMetric (now : Nat) (m : MetricInput) : MCPMetrics :=
  { requestDuration := m.requestDuration
    toolName := m.toolName
    success := m.success
    errorType := m.errorType
    retryCount := m.retryCount
    timestamp := now }

namespace MetricsCollector

/-- MetricsCollector.record: stamp the current time, push, and when the
log exceeds maxMetricsCount keep only the last maxMetricsCount entries
(slice of the suffix). -/
def record (metrics : List MCPMetrics) (now : Nat) (m : MetricInput) :
    List MCPMetrics :=
  let pushed := metrics ++ [stampMetric now m]
  if maxMetricsCount < pushed.length then
    pushed.drop (pushed.length - maxMetricsCount)
  else
    pushed

/-- MetricsCollector.getMetrics: a fresh copy of the log, which as a pure
value is the log itself. -/
def getMetrics (metrics : List MCPMetrics) : List MCPMetrics := metrics

end MetricsCollector

/-- A sequence of record calls, each with its own clock reading. -/
def recordAll : List MCPMetrics → List (Nat × MetricInput) → List MCPMetrics
  | log, [] => log
  | log, c :: cs => recordAll (MetricsCollector.record log c.1 c.2) cs

/-! ## Tool dispatcher (EnhancedLinearServer.executeTool) -/

/-- The opaque external Linear API client: the two methods the dispatcher
calls, each of which may throw. -/
structure LinearClient where
  issues : JsValue → Except Thrown JsValue
  createIssue : JsValue → Except Thrown JsValue

/-- The try-block of executeTool: the switch over the tool name, with the
zod validators of enhanced-types (which the server file imports) guarding
each client call; unknown names and invalid arguments throw plain Errors
carrying no code property. -/
def toolOutcome (client : LinearClient) (name : String) (params : JsValue) :
    Except Thrown JsValue :=
  if name = "listIssues" then
    if EnhancedTypes.isValidListIssuesArgs params then client.issues params
    else .error (.errObj
      { name := "Error", message := "Invalid list issues arguments"
        code := none, retryable := none })
  else if name = "createIssue" then
    if EnhancedTypes.isValidIssueCreateArgs params then client.createIssue params
    else .error (.errObj
      { name := "Error", message := "Invalid issue creation arguments"
        code := none, retryable := none })
  else
    .error (.errObj
      { name := "Error", message := "Unknown tool: " ++ name
        code := none, retryable := none })

/-- executeTool: run the try-block, then record exactly one metric on the
old log — success flag true on the success path; on the catch path the
failure is re-thrown after recording a failed metric whose errorType is
the error name. dur and ts are the wall-clock readings. -/
def executeTool (client : LinearClient) (dur ts : Nat) (name : String)
    (params : JsValue) (metrics : List MCPMetrics) :
    Except Thrown JsValue × List MCPMetrics :=
  match toolOutcome client name params with
  | .ok result =>
      (.ok result,
        MetricsCollector.record metrics ts
          { toolName := name, requestDuration := dur, success := true
            errorType := none, retryCount := 0 })
  | .error err =>
      (.error err,
        MetricsCollector.record metrics ts
          { toolName := name, requestDuration := dur, success := false
            errorType := some (thrownErrorName err), retryCount := 0 })

/-! ## Pipeline engine (src/pipeline.ts)

The PipelineProcessor is constructed over an arbitrary toolExecutor, so
the engine is stated over an arbitrary executor function threading an
abstract state σ (the metrics log, for the real server). The execution
context the source builds (fresh requestId, timestamp, overlaid with the
input context) is bound to a local variable that is never read again, so
it is not modelled. -/

/-- A pipeline step: tool name, literal params, and the caller-supplied
condition and transform functions, each of which may itself throw. -/
structure PipelineStep (V : Type) where
  toolName : String
  params : V
  condition : Option (V → Except Thrown Bool) := none
  transform : Option (V → Except Thrown V) := none

structure Pipeline (V : Type) where
  steps : List (PipelineStep V)

/-- The outcome of PipelineSchema.safeParse on the raw call arguments:
either the parsed pipeline, or a parse failure. The schema check itself
(a zod object with a steps array of objects with a string toolName and
optional functions) is external library code; only its success or
failure is observable to executePipeline. -/
inductive PipelineInput (V : Type) where
  | valid (p : Pipeline V)
  | invalid

/-- The condition test of the loop body: a step without a condition always
runs. -/
def evalCondition {V : Type} (step : PipelineStep V) (prevResult : V) :
    Except Thrown Bool :=
  match step.condition with
  | none => .ok true
  | some c => c prevResult

/-- The effective params: the transform of the previous result when a
transform is present, the literal step params otherwise. -/
def evalParams {V : Type} (step : PipelineStep V) (prevResult : V) :
    Except Thrown V :=
  match step.transform with
  | none => .ok step.params
  | some f => f prevResult

/-- The catch block of the loop body: a new Error whose message is the
thrown message, whose code is the thrown code when the thrown value is an
Error carrying one and PIPELINE_STEP_ERROR otherwise, and whose retryable
property is false. -/
def wrapStepError (err : Thrown) : ErrObj :=
  { name := "Error"
    message := thrownMessage err
    code := some ((thrownCode err).getD "PIPELINE_STEP_ERROR")
    retryable := some false }

/-- One iteration of the loop body under its try: condition test (a false
condition skips), effective params, dispatch; any throw anywhere in the
body is a failure carrying the state at the point of the throw. -/
inductive StepOutcome (V σ : Type) where
  | skip
  | success (result : V) (st : σ)
  | failure (err : Thrown) (st : σ)

def stepRun {V σ : Type} (exec : String → V → σ → Except Thrown V × σ)
    (step : PipelineStep V) (prevResult : V) (st : σ) : StepOutcome V σ :=
  match evalCondition step prevResult with
  | .error err => .failure err st
  | .ok false => .skip
  | .ok true =>
    match evalParams step prevResult with
    | .error err => .failure err st
    | .ok params =>
      match exec step.toolName params st with
      | (.ok result, st2) => .success result st2
      | (.error err, st2) => .failure err st2

/-- The step loop: skip keeps prevResult, the accumulator and the state
untouched; success appends the result and makes it the new prevResult; a
failure wraps the thrown value and aborts, discarding the accumulator. -/
def runSteps {V σ : Type} (exec : String → V → σ → Except Thrown V × σ) :
    List (PipelineStep V) → V → List V → σ → Except Thrown (List V) × σ
  | [], _, results, st => (.ok results, st)
  | step :: rest, prevResult, results, st =>
    match stepRun exec step prevResult st with
    | .skip => runSteps exec rest prevResult results st
    | .success result st2 => runSteps exec rest result (results ++ [result]) st2
    | .failure err st2 => (.error (.errObj (wrapStepError err)), st2)

/-- The Error thrown when PipelineSchema.safeParse fails: a plain Error
with no code property. -/
def invalidPipelineError : ErrObj :=
  { name := "Error", message := "Invalid pipeline configuration"
    code := none, retryable := none }

/-- executePipeline: validate, then run the steps starting from a null
prevResult and an empty results accumulator. nullV is the JavaScript null
of the value type. -/
def executePipeline {V σ : Type} (exec : String → V → σ → Except Thrown V × σ)
    (nullV : V) (input : PipelineInput V) (st : σ) :
    Except Thrown (List V) × σ :=
  match input with
  | .invalid => (.error (.errObj invalidPipelineError), st)
  | .valid p => runSteps exec p.steps nullV [] st

/-- The number of steps skipped by their condition along a run, by the
same recursion as the loop (zero from the first failing step on, where
the run aborts). -/
def skippedInRun {V σ : Type} (exec : String → V → σ → Except Thrown V × σ) :
    List (PipelineStep V) → V → σ → Nat
  | [], _, _ => 0
  | step :: rest, prevResult, st =>
    match stepRun exec step prevResult st with
    | .skip => skippedInRun exec rest prevResult st + 1
    | .success result st2 => skippedInRun exec rest result st2
    | .failure _ _ => 0

/-! ## Concrete instances used to evaluate the definitions -/

/-- An executor that succeeds on every call and leaves the state alone. -/
def okExec : String → JsValue → Unit → Except Thrown JsValue × Unit :=
  fun _ _ st => (.ok (.vstr "ok"), st)

/-- A client failure carrying the RATE_LIMIT code. -/
def rateLimitThrown : Thrown :=
  .errObj { name := "RateLimitError", message := "rate limited"
            code := some "RATE_LIMIT", retryable := none }

/-- An executor whose every call fails with the RATE_LIMIT client error. -/
def failExec : String → JsValue → Unit → Except Thrown JsValue × Unit :=
  fun _ _ st => (.error rateLimitThrown, st)

/-- A plain step with neither condition nor transform. -/
def simpleStep : PipelineStep JsValue :=
  { toolName := "listIssues", params := .vnull }

/-- A condition that evaluates to false on every previous result. -/
def condFalse : JsValue → Except Thrown Bool := fun _ => .ok false

/-- A thrown Error without a code property. -/
def boomThrown : Thrown :=
  .errObj { name := "Error", message := "boom", code := none, retryable := none }

/-- A condition that itself throws. -/
def condThrow : JsValue → Except Thrown Bool := fun _ => .error boomThrown

/-- A transform that itself throws. -/
def transformThrow : JsValue → Except Thrown JsValue := fun _ => .error boomThrown

/-- A step guarded by the always-false condition. -/
def condStep : PipelineStep JsValue :=
  { toolName := "createIssue", params := .vnull, condition := some condFalse }

/-- A step whose condition throws. -/
def condThrowStep : PipelineStep JsValue :=
  { toolName := "createIssue", params := .vnull, condition := some condThrow }

/-- A step whose transform throws. -/
def transformThrowStep : PipelineStep JsValue :=
  { toolName := "createIssue", params := .vnull, transform := some transformThrow }

/-- A client that answers every call with null. -/
def trivialClient : LinearClient :=
  { issues := fun _ => .ok .vnull, createIssue := fun _ => .ok .vnull }

/-- A client whose issues call fails with the RATE_LIMIT error. -/
def rateLimitClient : LinearClient :=
  { issues := fun _ => .error rateLimitThrown, createIssue := fun _ => .ok .vnull }

/-- Issue-creation arguments whose optional priority field is a string:
the manual guard accepts them, the zod schema rejects them. -/
def createArgsWrongPriority : JsValue :=
  .vobj [("title", .vstr "a"), ("teamId", .vstr "b"), ("priority", .vstr "high")]

/-- An empty array: typeof object and without the tested keys, so the
manual list-issues guard accepts it while the zod object schema rejects
arrays. -/
def emptyArrayArgs : JsValue := .varr []

/-- An object whose teamId property is explicitly undefined: valid for the
zod optional field, rejected by the manual in-test plus typeof check. -/
def undefinedTeamIdArgs : JsValue := .vobj [("teamId", .vundefined)]

/-- Well-formed issue-creation arguments. -/
def goodCreateArgs : JsValue := .vobj [("title", .vstr "t"), ("teamId", .vstr "T")]

/-- A sample metric input. -/
def sampleMetricInput : MetricInput :=
  { requestDuration := 3, toolName := "listIssues", success := true
    errorType := none, retryCount := 0 }

/-! ## Helper lemmas about the pipeline loop -/

/-- A successful run yields a result per non-skipped step: the length of
the final list plus the skips of the remaining run equals the accumulator
length plus the remaining step count. -/
theorem runSteps_ok_length {V σ : Type}
    (exec : String → V → σ → Except Thrown V × σ) (steps : List (PipelineStep V)) :
    ∀ (prevResult : V) (results : List V) (st : σ) (res : List V) (st2 : σ),
      runSteps exec steps prevResult results st = (.ok res, st2) →
      res.length + skippedInRun exec steps prevResult st
        = results.length + steps.length := by
  induction steps with
  | nil =>
    intro prev results st res st2 h
    simp only [runSteps, Prod.mk.injEq, Except.ok.injEq] at h
    simp [skippedInRun, h.1]
  | cons step rest ih =>
    intro prev results st res st2 h
    cases hs : stepRun exec step prev st with
    | skip =>
      rw [runSteps, hs] at h
      have := ih prev results st res st2 h
      simp only [skippedInRun, hs, List.length_cons]
      omega
    | success r st3 =>
      rw [runSteps, hs] at h
      have := ih r (results ++ [r]) st3 res st2 h
      simp only [List.length_append, List.length_cons, List.length_nil] at this
      simp only [skippedInRun, hs, List.length_cons]
      omega
    | failure err st3 =>
      rw [runSteps, hs] at h
      simp at h

/-- The loop abort: at a failing step the run returns the wrapped error
and the state at the throw, regardless of the remaining steps and of the
results accumulated so far. -/
theorem runSteps_failure {V σ : Type}
    (exec : String → V → σ → Except Thrown V × σ) (step : PipelineStep V)
    (rest : List (PipelineStep V)) (prevResult : V) (results : List V)
    (st : σ) (err : Thrown) (st2 : σ)
    (h : stepRun exec step prevResult st = .failure err st2) :
    runSteps exec (step :: rest) prevResult results st
      = (.error (.errObj (wrapStepError err)), st2) := by
  rw [runSteps, h]

/-- The skip case of the loop: a false condition leaves everything as it
was and moves on to the remaining steps. -/
theorem runSteps_skip {V σ : Type}
    (exec : String → V → σ → Except Thrown V × σ) (step : PipelineStep V)
    (rest : List (PipelineStep V)) (prevResult : V) (results : List V) (st : σ)
    (h : stepRun exec step prevResult st = .skip) :
    runSteps exec (step :: rest) prevResult results st
      = runSteps exec rest prevResult results st := by
  rw [runSteps, h]

/-- The success case of the loop: the result is appended at the end of the
accumulator and becomes the next prevResult. -/
theorem runSteps_success {V σ : Type}
    (exec : String → V → σ → Except Thrown V × σ) (step : PipelineStep V)
    (rest : List (PipelineStep V)) (prevResult : V) (results : List V)
    (st : σ) (r : V) (st2 : σ)
    (h : stepRun exec step prevResult st = .success r st2) :
    runSteps exec (step :: rest) prevResult results st
      = runSteps exec rest r (results ++ [r]) st2 := by
  rw [runSteps, h]

/-- A present condition evaluating to ok false makes the step outcome a
skip. -/
theorem stepRun_skip_of_condFalse {V σ : Type}
    (exec : String → V → σ → Except Thrown V × σ) (step : PipelineStep V)
    (prevResult : V) (st : σ) (c : V → Except Thrown Bool)
    (hc : step.condition = some c) (hf : c prevResult = .ok false) :
    stepRun exec step prevResult st = .skip := by
  simp [stepRun, evalCondition, hc, hf]

/-- A throwing condition makes the step outcome a failure carrying the
state at entry. -/
theorem stepRun_failure_of_condThrow {V σ : Type}
    (exec : String → V → σ → Except Thrown V × σ) (step : PipelineStep V)
    (prevResult : V) (st : σ) (c : V → Except Thrown Bool) (err : Thrown)
    (hc : step.condition = some c) (hf : c prevResult = .error err) :
    stepRun exec step prevResult st = .failure err st := by
  simp [stepRun, evalCondition, hc, hf]

/-- A throwing transform makes the step outcome a failure carrying the
state at entry, when the condition lets the step run. -/
theorem stepRun_failure_of_transformThrow {V σ : Type}
    (exec : String → V → σ → Except Thrown V × σ) (step : PipelineStep V)
    (prevResult : V) (st : σ) (f : V → Except Thrown V) (err : Thrown)
    (hcond : evalCondition step prevResult = .ok true)
    (ht : step.transform = some f) (hf : f prevResult = .error err) :
    stepRun exec step prevResult st = .failure err st := by
  simp [stepRun, evalParams, hcond, ht, hf]

/-! ## Helper lemmas about the metrics ring buffer -/

/-- One record call in closed form: push, then drop the overhang of the
capacity (zero when within capacity). -/
theorem record_eq (log : List MCPMetrics) (now : Nat) (m : MetricInput) :
    MetricsCollector.record log now m
      = (log ++ [stampMetric now m]).drop ((log.length + 1) - maxMetricsCount) := by
  unfold MetricsCollector.record
  by_cases h : maxMetricsCount < (log ++ [stampMetric now m]).length
  · simp only [h, if_true]
    simp [List.length_append]
  · simp only [h, if_false]
    have hlen : (log ++ [stampMetric now m]).length = log.length + 1 := by
      simp [List.length_append]
    rw [hlen] at h
    have h0 : (log.length + 1) - maxMetricsCount = 0 := by omega
    rw [h0, List.drop_zero]

/-- Dropping the capacity overhang commutes with appending further
entries: the sliding-window identity behind the record recursion. -/
theorem drop_window_aux {α : Type} (A B : List α) (M i j k : Nat)
    (hA : A.length ≤ M + 1)
    (hi : i = A.length - M)
    (hj : j = ((A.length - i) + B.length) - M)
    (hk : k = (A.length + B.length) - M) :
    (A.drop i ++ B).drop j = (A ++ B).drop k := by
  subst hi hj hk
  rw [List.drop_append_eq_append_drop, List.drop_drop, List.length_drop,
      List.drop_append_eq_append_drop]
  congr 1
  · congr 1
    omega
  · congr 1
    omega

/-- A run of record calls starting from a log within capacity keeps, of
the stamped history, exactly the suffix that fits the capacity. -/
theorem recordAll_window (calls : List (Nat × MetricInput)) :
    ∀ (log : List MCPMetrics), log.length ≤ maxMetricsCount →
    recordAll log calls
      = (log ++ calls.map (fun c => stampMetric c.1 c.2)).drop
          ((log.length + calls.length) - maxMetricsCount) := by
  induction calls with
  | nil =>
    intro log hlen
    have h0 : log.length - maxMetricsCount = 0 := by omega
    simp [recordAll, h0]
  | cons c cs ih =>
    intro log hlen
    show recordAll (MetricsCollector.record log c.1 c.2) cs = _
    rw [record_eq]
    set sm : MCPMetrics := stampMetric c.1 c.2 with hsm
    set A : List MCPMetrics := log ++ [sm] with hA
    have hAlen : A.length = log.length + 1 := by simp [hA]
    set idx : Nat := (log.length + 1) - maxMetricsCount with hidx
    have hdroplen : (A.drop idx).length = A.length - idx := List.length_drop idx A
    have hnew : (A.drop idx).length ≤ maxMetricsCount := by
      rw [hdroplen, hAlen]
      omega
    rw [ih (A.drop idx) hnew]
    have hmap : List.map (fun c => stampMetric c.1 c.2) (c :: cs)
        = sm :: List.map (fun c => stampMetric c.1 c.2) cs := by
      simp [hsm]
    rw [hmap, List.append_cons, ← hA]
    refine drop_window_aux A _ maxMetricsCount idx _ _ ?_ ?_ ?_ ?_
    · rw [hAlen]
      omega
    · rw [hAlen]
    · rw [hdroplen, List.length_map]
    · rw [hAlen, List.length_map, List.length_cons]
      omega

/-! ## Helper lemmas about the validators -/

/-- A value passing the isStringVal check has typeof string. -/
theorem jsTypeof_eq_string_of_isStringVal {v : JsValue} (h : isStringVal v = true) :
    jsTypeof v = "string" := by
  cases v <;> simp_all [isStringVal, jsTypeof]

/-- When property access on an object yields a string, the property is
present. -/
theorem hasKey_of_getKey_string {fields : List (String × JsValue)} {k : String}
    (h : isStringVal (getKey (.vobj fields) k) = true) :
    hasKey (.vobj fields) k = true := by
  simp only [getKey] at h
  cases hf : fields.find? (fun p => p.1 == k) with
  | none =>
    rw [hf] at h
    simp [isStringVal] at h
  | some q =>
    have hq := @List.find?_some _ (fun p => p.1 == k) q fields hf
    simp only [hasKey, List.any_eq_true]
    exact ⟨q, List.mem_of_find?_eq_some hf, hq⟩

/-! ## Claim theorems -/

/-- C1 counterexample: a pipeline step failing with a client RATE_LIMIT
error is wrapped with the propagated RATE_LIMIT code, not
PIPELINE_STEP_ERROR, and the handler then serializes it as retryable. -/
theorem C1_cex :
    executePipeline failExec JsValue.vnull (.valid ⟨[simpleStep]⟩) ()
      = (.error (.errObj (wrapStepError rateLimitThrown)), ())
    ∧ (wrapStepError rateLimitThrown).code ≠ some "PIPELINE_STEP_ERROR"
    ∧ (serializeError (.errObj (wrapStepError rateLimitThrown))).retryable = true :=
  ⟨rfl, by decide, by decide⟩

/-- C1 amended: when a pipeline step fails, executePipeline throws an
Error whose message is the underlying message and whose retryable
property is false, but whose code is the underlying code when the thrown
value is an Error carrying one, and PIPELINE_STEP_ERROR only otherwise;
the handler recomputes retryable from that code, so the serialized error
is retryable exactly when the propagated code is RATE_LIMIT or
NETWORK_ERROR. -/
theorem C1_thm {V σ : Type} (exec : String → V → σ → Except Thrown V × σ)
    (step : PipelineStep V) (rest : List (PipelineStep V)) (prevResult : V)
    (results : List V) (st : σ) (err : Thrown) (st2 : σ)
    (h : stepRun exec step prevResult st = .failure err st2) :
    runSteps exec (step :: rest) prevResult results st
      = (.error (.errObj (wrapStepError err)), st2)
    ∧ (wrapStepError err).message = thrownMessage err
    ∧ (wrapStepError err).retryable = some false
    ∧ (wrapStepError err).code = some ((thrownCode err).getD "PIPELINE_STEP_ERROR")
    ∧ (serializeError (.errObj (wrapStepError err))).retryable
        = (((thrownCode err).getD "PIPELINE_STEP_ERROR") == "RATE_LIMIT"
            || ((thrownCode err).getD "PIPELINE_STEP_ERROR") == "NETWORK_ERROR") :=
  ⟨runSteps_failure exec step rest prevResult results st err st2 h, rfl, rfl, rfl, rfl⟩

/-- C1 amended witness at a concrete RATE_LIMIT step failure. -/
theorem C1_witness :
    runSteps failExec [simpleStep] JsValue.vnull [] ()
      = (.error (.errObj (wrapStepError rateLimitThrown)), ())
    ∧ (serializeError (.errObj (wrapStepError rateLimitThrown))).retryable
        = (((thrownCode rateLimitThrown).getD "PIPELINE_STEP_ERROR") == "RATE_LIMIT"
            || ((thrownCode rateLimitThrown).getD "PIPELINE_STEP_ERROR") == "NETWORK_ERROR") := by
  have h := C1_thm failExec simpleStep [] JsValue.vnull [] () rateLimitThrown () rfl
  exact ⟨h.1, h.2.2.2.2⟩

/-- C2 counterexample: the schema-rejection error of executePipeline
carries no code property, in particular not INVALID_PIPELINE, and it
serializes at the boundary with code TOOL_ERROR. -/
theorem C2_cex :
    executePipeline okExec JsValue.vnull .invalid ()
      = (.error (.errObj invalidPipelineError), ())
    ∧ invalidPipelineError.code ≠ some "INVALID_PIPELINE"
    ∧ (serializeError (.errObj invalidPipelineError)).code ≠ "INVALID_PIPELINE" :=
  ⟨rfl, by decide, by decide⟩

/-- C2 amended: a pipeline input rejected by the schema makes
executePipeline throw a plain Error with message Invalid pipeline
configuration and no code property (serialized at the boundary with code
TOOL_ERROR), for every executor and with the threaded state — hence the
metrics log — unchanged: the failure happens before any step is
dispatched and before any metric is recorded. -/
theorem C2_thm {V σ : Type} (exec : String → V → σ → Except Thrown V × σ)
    (nullV : V) (st : σ) :
    executePipeline exec nullV .invalid st
      = (.error (.errObj invalidPipelineError), st)
    ∧ invalidPipelineError.code = none
    ∧ (serializeError (.errObj invalidPipelineError)).code = "TOOL_ERROR" :=
  ⟨rfl, rfl, rfl⟩

/-- C3 counterexample: an unregistered tool name fails with a plain Error
without a code which serializes with code TOOL_ERROR, not UNKNOWN_TOOL;
invalid createIssue arguments likewise serialize as TOOL_ERROR, not
INVALID_ARGUMENTS. -/
theorem C3_cex :
    (executeTool trivialClient 5 7 "frobnicate" JsValue.vnull []).1
      = .error (.errObj { name := "Error", message := "Unknown tool: frobnicate"
                          code := none, retryable := none })
    ∧ (serializeError (.errObj { name := "Error", message := "Unknown tool: frobnicate"
                                 code := none, retryable := none })).code ≠ "UNKNOWN_TOOL"
    ∧ (executeTool trivialClient 5 7 "createIssue" JsValue.vnull []).1
      = .error (.errObj { name := "Error", message := "Invalid issue creation arguments"
                          code := none, retryable := none })
    ∧ (serializeError (.errObj { name := "Error", message := "Invalid issue creation arguments"
                                 code := none, retryable := none })).code ≠ "INVALID_ARGUMENTS" :=
  ⟨rfl, by decide, rfl, by decide⟩

/-- C3 amended: an unregistered name throws a plain Error with an Unknown
tool message and no code; arguments rejected by the tool validator throw
a plain Error with the corresponding message and no code (both serialize
with code TOOL_ERROR); a failure of the client propagates unchanged, and
the boundary code is its code property when present, TOOL_ERROR
otherwise. -/
theorem C3_thm (client : LinearClient) (dur ts : Nat) (params : JsValue)
    (metrics : List MCPMetrics) :
    (∀ name : String, name ≠ "listIssues" → name ≠ "createIssue" →
        (executeTool client dur ts name params metrics).1
          = .error (.errObj { name := "Error", message := "Unknown tool: " ++ name
                              code := none, retryable := none }))
    ∧ (EnhancedTypes.isValidListIssuesArgs params = false →
        (executeTool client dur ts "listIssues" params metrics).1
          = .error (.errObj { name := "Error", message := "Invalid list issues arguments"
                              code := none, retryable := none }))
    ∧ (EnhancedTypes.isValidIssueCreateArgs params = false →
        (executeTool client dur ts "createIssue" params metrics).1
          = .error (.errObj { name := "Error", message := "Invalid issue creation arguments"
                              code := none, retryable := none }))
    ∧ (∀ err : Thrown, EnhancedTypes.isValidListIssuesArgs params = true →
        client.issues params = .error err →
        (executeTool client dur ts "listIssues" params metrics).1 = .error err)
    ∧ (∀ err : Thrown, (serializeError err).code = (thrownCode err).getD "TOOL_ERROR") := by
  refine ⟨?_, ?_, ?_, ?_, fun err => rfl⟩
  · intro name h1 h2
    simp [executeTool, toolOutcome, h1, h2]
  · intro h
    simp [executeTool, toolOutcome, h]
  · intro h
    simp [executeTool, toolOutcome, h]
  · intro err hv hc
    simp [executeTool, toolOutcome, hv, hc]

/-- C3 amended witness: a concrete unknown name and a concrete propagated
client failure. -/
theorem C3_witness :
    (executeTool trivialClient 5 7 "unknownOp" JsValue.vnull []).1
      = .error (.errObj { name := "Error", message := "Unknown tool: " ++ "unknownOp"
                          code := none, retryable := none })
    ∧ (executeTool rateLimitClient 5 7 "listIssues" (JsValue.vobj []) []).1
      = .error rateLimitThrown := by
  constructor
  · exact (C3_thm trivialClient 5 7 JsValue.vnull []).1 "unknownOp" (by decide) (by decide)
  · exact (C3_thm rateLimitClient 5 7 (JsValue.vobj []) []).2.2.2.1 rateLimitThrown
      (by decide) rfl

/-- C4: on a successful run the number of results equals the step count
minus the skipped-step count; the result of each executed step is
appended at the end of the accumulator in declaration order; and at a
failing step the run aborts — the outcome is the wrapped error with the
state at the throw, identical for every continuation of the step list
and every accumulator, so no further step is dispatched and the
accumulated partial results are not returned. -/
theorem C4_thm {V σ : Type} (exec : String → V → σ → Except Thrown V × σ)
    (p : Pipeline V) (nullV : V) (st : σ) :
    (∀ (res : List V) (st2 : σ),
        executePipeline exec nullV (.valid p) st = (.ok res, st2) →
        res.length + skippedInRun exec p.steps nullV st = p.steps.length)
    ∧ (∀ (step : PipelineStep V) (rest : List (PipelineStep V)) (prevResult : V)
          (results : List V) (st1 : σ) (r : V) (st2 : σ),
        stepRun exec step prevResult st1 = .success r st2 →
        runSteps exec (step :: rest) prevResult results st1
          = runSteps exec rest r (results ++ [r]) st2)
    ∧ (∀ (step : PipelineStep V) (rest : List (PipelineStep V)) (prevResult : V)
          (results : List V) (st1 : σ) (err : Thrown) (st2 : σ),
        stepRun exec step prevResult st1 = .failure err st2 →
        runSteps exec (step :: rest) prevResult results st1
          = (.error (.errObj (wrapStepError err)), st2)) := by
  refine ⟨?_, ?_, ?_⟩
  · intro res st2 h
    have := runSteps_ok_length exec p.steps nullV [] st res st2 h
    simpa using this
  · exact fun step rest prev results st1 r st2 h =>
      runSteps_success exec step rest prev results st1 r st2 h
  · exact fun step rest prev results st1 err st2 h =>
      runSteps_failure exec step rest prev results st1 err st2 h

/-- C4 witness: a one-step pipeline whose step succeeds yields one result
with no skip, and a concretely failing step aborts with the wrapped
error. -/
theorem C4_witness :
    [JsValue.vstr "ok"].length
        + skippedInRun okExec [simpleStep] JsValue.vnull () = [simpleStep].length
    ∧ runSteps failExec [simpleStep, simpleStep] JsValue.vnull [JsValue.vstr "prev"] ()
        = (.error (.errObj (wrapStepError rateLimitThrown)), ()) := by
  constructor
  · exact (C4_thm okExec ⟨[simpleStep]⟩ JsValue.vnull ()).1 [JsValue.vstr "ok"] () rfl
  · exact (C4_thm failExec ⟨[]⟩ JsValue.vnull ()).2.2 simpleStep [simpleStep]
      JsValue.vnull [JsValue.vstr "prev"] () rateLimitThrown () rfl

/-- C5: a present condition evaluating to false on the previous result
skips the step entirely — the step outcome is a skip, and the loop
continues on the remaining steps with the same previous result, the same
accumulator and the same state, for every executor, so nothing is
dispatched and no metric is recorded for the skipped step. -/
theorem C5_thm {V σ : Type} (exec : String → V → σ → Except Thrown V × σ)
    (step : PipelineStep V) (rest : List (PipelineStep V)) (prevResult : V)
    (results : List V) (st : σ) (c : V → Except Thrown Bool)
    (hc : step.condition = some c) (hf : c prevResult = .ok false) :
    stepRun exec step prevResult st = .skip
    ∧ runSteps exec (step :: rest) prevResult results st
      = runSteps exec rest prevResult results st := by
  have hs := stepRun_skip_of_condFalse exec step prevResult st c hc hf
  exact ⟨hs, runSteps_skip exec step rest prevResult results st hs⟩

/-- C5 witness at a concrete always-false condition. -/
theorem C5_witness :
    stepRun okExec condStep JsValue.vnull () = .skip
    ∧ runSteps okExec [condStep, simpleStep] JsValue.vnull [] ()
      = runSteps okExec [simpleStep] JsValue.vnull [] () :=
  C5_thm okExec condStep [simpleStep] JsValue.vnull [] () condFalse rfl rfl

/-- C6: every executeTool call records exactly one metric onto the prior
log — with success true and no errorType on the success path, success
false and the error name as errorType on the failure path — and the
recorded retryCount is 0 in both cases. -/
theorem C6_thm (client : LinearClient) (dur ts : Nat) (name : String)
    (params : JsValue) (metrics : List MCPMetrics) :
    ((∃ r, (executeTool client dur ts name params metrics).1 = .ok r)
      ∨ (∃ err, (executeTool client dur ts name params metrics).1 = .error err))
    ∧ (∀ r, (executeTool client dur ts name params metrics).1 = .ok r →
        (executeTool client dur ts name params metrics).2
          = MetricsCollector.record metrics ts
              { toolName := name, requestDuration := dur, success := true
                errorType := none, retryCount := 0 })
    ∧ (∀ err, (executeTool client dur ts name params metrics).1 = .error err →
        (executeTool client dur ts name params metrics).2
          = MetricsCollector.record metrics ts
              { toolName := name, requestDuration := dur, success := false
                errorType := some (thrownErrorName err), retryCount := 0 }) := by
  cases h : toolOutcome client name params with
  | ok r =>
    refine ⟨Or.inl ⟨r, ?_⟩, ?_, ?_⟩ <;> simp [executeTool, h]
  | error err =>
    refine ⟨Or.inr ⟨err, ?_⟩, ?_, ?_⟩ <;> simp [executeTool, h]

/-- C6 witness: a concrete successful call and a concrete failing call
each record exactly their one metric. -/
theorem C6_witness :
    (executeTool trivialClient 4 9 "listIssues" (JsValue.vobj []) []).2
      = MetricsCollector.record [] 9
          { toolName := "listIssues", requestDuration := 4, success := true
            errorType := none, retryCount := 0 }
    ∧ (executeTool trivialClient 4 9 "badTool" (JsValue.vobj []) []).2
      = MetricsCollector.record [] 9
          { toolName := "badTool", requestDuration := 4, success := false
            errorType := some "Error", retryCount := 0 } := by
  constructor
  · exact (C6_thm trivialClient 4 9 "listIssues" (JsValue.vobj []) []).2.1
      JsValue.vnull rfl
  · exact (C6_thm trivialClient 4 9 "badTool" (JsValue.vobj []) []).2.2
      (.errObj { name := "Error", message := "Unknown tool: badTool"
                 code := none, retryable := none }) rfl

/-- C7: the metrics log never exceeds 1000 entries; through 1000 records
getMetrics returns exactly the stamped inputs in insertion order,
unmodified; beyond 1000 records it returns exactly the most recent 1000,
the oldest entries dropped first. -/
theorem C7_thm (calls : List (Nat × MetricInput)) :
    (recordAll [] calls).length ≤ maxMetricsCount
    ∧ (calls.length ≤ maxMetricsCount →
        MetricsCollector.getMetrics (recordAll [] calls)
          = calls.map (fun c => stampMetric c.1 c.2))
    ∧ MetricsCollector.getMetrics (recordAll [] calls)
        = (calls.map (fun c => stampMetric c.1 c.2)).drop
            (calls.length - maxMetricsCount) := by
  have h := recordAll_window calls [] (by simp [maxMetricsCount])
  simp only [List.nil_append, List.length_nil, Nat.zero_add] at h
  refine ⟨?_, ?_, ?_⟩
  · rw [h, List.length_drop, List.length_map]
    omega
  · intro hle
    have h0 : calls.length - maxMetricsCount = 0 := by omega
    rw [MetricsCollector.getMetrics, h, h0, List.drop_zero]
  · rw [MetricsCollector.getMetrics, h]

/-- C7 witness: two records stay within capacity and are returned in
insertion order, unmodified. -/
theorem C7_witness :
    MetricsCollector.getMetrics
        (recordAll [] [(1, sampleMetricInput), (2, sampleMetricInput)])
      = [stampMetric 1 sampleMetricInput, stampMetric 2 sampleMetricInput] :=
  (C7_thm [(1, sampleMetricInput), (2, sampleMetricInput)]).2.1 (by decide)

/-- C8 counterexample: the fixed table maps RATE_LIMIT to capitalized
suggestion strings, not the lowercase strings of the claim. -/
theorem C8_cex :
    getSuggestionsForError (some "RATE_LIMIT")
      = ["Wait and retry later", "Reduce request frequency"]
    ∧ getSuggestionsForError (some "RATE_LIMIT")
      ≠ ["wait and retry later", "reduce request frequency"] :=
  ⟨rfl, by decide⟩

/-- C8 amended: the suggestions of every serialized protocol error are a
pure function of its code through the fixed table — RATE_LIMIT,
AUTHENTICATION_ERROR and NETWORK_ERROR map to their fixed capitalized
lists and every other code maps to the generic defaults. -/
theorem C8_thm :
    (∀ err : Thrown, (serializeError err).suggestions
        = getSuggestionsForError (some ((thrownCode err).getD "TOOL_ERROR")))
    ∧ getSuggestionsForError (some "RATE_LIMIT")
        = ["Wait and retry later", "Reduce request frequency"]
    ∧ getSuggestionsForError (some "AUTHENTICATION_ERROR")
        = ["Check API key", "Verify Linear authentication"]
    ∧ getSuggestionsForError (some "NETWORK_ERROR")
        = ["Check network connection", "Verify Linear API status"]
    ∧ (∀ code : Option String,
        code ≠ some "RATE_LIMIT" → code ≠ some "AUTHENTICATION_ERROR" →
        code ≠ some "NETWORK_ERROR" →
        getSuggestionsForError code
          = ["Check input parameters", "Consult Linear API documentation"]) := by
  refine ⟨fun err => rfl, rfl, rfl, rfl, ?_⟩
  intro code h1 h2 h3
  simp [getSuggestionsForError, h1, h2, h3]

/-- C8 witness: an unlisted code gets the generic default suggestions. -/
theorem C8_witness :
    getSuggestionsForError (some "SOME_OTHER_CODE")
      = ["Check input parameters", "Consult Linear API documentation"] :=
  C8_thm.2.2.2.2 (some "SOME_OTHER_CODE") (by decide) (by decide) (by decide)

/-- C9: a throwing condition or transform aborts the run exactly like a
dispatch failure — the same wrapStepError wrapping, whose retryable
property is false — with the state unchanged, and with an outcome that
does not depend on the executor, so the dispatcher is never invoked for
that step and no metric is recorded for it. -/
theorem C9_thm {V σ : Type} (exec : String → V → σ → Except Thrown V × σ)
    (step : PipelineStep V) (rest : List (PipelineStep V)) (prevResult : V)
    (results : List V) (st : σ) :
    (∀ (c : V → Except Thrown Bool) (err : Thrown),
        step.condition = some c → c prevResult = .error err →
        runSteps exec (step :: rest) prevResult results st
          = (.error (.errObj (wrapStepError err)), st))
    ∧ (∀ (f : V → Except Thrown V) (err : Thrown),
        evalCondition step prevResult = .ok true → step.transform = some f →
        f prevResult = .error err →
        runSteps exec (step :: rest) prevResult results st
          = (.error (.errObj (wrapStepError err)), st))
    ∧ (∀ err : Thrown, (wrapStepError err).retryable = some false) := by
  refine ⟨?_, ?_, fun err => rfl⟩
  · intro c err hc hf
    exact runSteps_failure exec step rest prevResult results st err st
      (stepRun_failure_of_condThrow exec step prevResult st c err hc hf)
  · intro f err hcond ht hf
    exact runSteps_failure exec step rest prevResult results st err st
      (stepRun_failure_of_transformThrow exec step prevResult st f err hcond ht hf)

/-- C9 witness: a concrete throwing condition and a concrete throwing
transform. -/
theorem C9_witness :
    runSteps okExec [condThrowStep] JsValue.vnull [] ()
      = (.error (.errObj (wrapStepError boomThrown)), ())
    ∧ runSteps okExec [transformThrowStep] JsValue.vnull [] ()
      = (.error (.errObj (wrapStepError boomThrown)), ()) := by
  constructor
  · exact (C9_thm okExec condThrowStep [] JsValue.vnull [] ()).1
      condThrow boomThrown rfl rfl
  · exact (C9_thm okExec transformThrowStep [] JsValue.vnull [] ()).2.1
      transformThrow boomThrown rfl rfl rfl

/-- C10 counterexample: arguments whose optional priority field is a
string are accepted by the manual guard and rejected by the zod
validator — the two implementations are not equivalent predicates. -/
theorem C10_cex :
    ManualGuards.isValidIssueCreateArgs createArgsWrongPriority = true
    ∧ EnhancedTypes.isValidIssueCreateArgs createArgsWrongPriority = false :=
  ⟨by decide, by decide⟩

/-- C10 amended: the zod createIssue validator is strictly stronger than
the manual guard (zod acceptance implies manual acceptance, while the
manual guard accepts arguments with ill-typed optional fields that zod
rejects); the two listIssues validators disagree in both directions (the
manual guard accepts arrays, zod does not; zod accepts an
explicitly-undefined teamId, the manual guard does not). -/
theorem C10_thm :
    (∀ v : JsValue, EnhancedTypes.isValidIssueCreateArgs v = true →
        ManualGuards.isValidIssueCreateArgs v = true)
    ∧ (ManualGuards.isValidIssueCreateArgs createArgsWrongPriority = true
        ∧ EnhancedTypes.isValidIssueCreateArgs createArgsWrongPriority = false)
    ∧ (ManualGuards.isValidListIssuesArgs emptyArrayArgs = true
        ∧ EnhancedTypes.isValidListIssuesArgs emptyArrayArgs = false)
    ∧ (EnhancedTypes.isValidListIssuesArgs undefinedTeamIdArgs = true
        ∧ ManualGuards.isValidListIssuesArgs undefinedTeamIdArgs = false) := by
  refine ⟨?_, ⟨by decide, by decide⟩, ⟨by decide, by decide⟩, ⟨by decide, by decide⟩⟩
  intro v h
  cases v
  case vobj fields =>
    simp only [EnhancedTypes.isValidIssueCreateArgs, Bool.and_eq_true] at h
    obtain ⟨⟨⟨⟨ht, hdesc⟩, hteam⟩, hass⟩, hp⟩ := h
    have h1 := hasKey_of_getKey_string ht
    have h2 := jsTypeof_eq_string_of_isStringVal ht
    have h3 := hasKey_of_getKey_string hteam
    have h4 := jsTypeof_eq_string_of_isStringVal hteam
    have h0 : jsTypeof (JsValue.vobj fields) = "object" := rfl
    simp [ManualGuards.isValidIssueCreateArgs, isNull, h0, h1, h2, h3, h4]
  all_goals simp [EnhancedTypes.isValidIssueCreateArgs] at h

/-- C10 amended witness: zod acceptance of concrete well-formed creation
arguments implies manual acceptance. -/
theorem C10_witness :
    ManualGuards.isValidIssueCreateArgs goodCreateArgs = true :=
  C10_thm.1 goodCreateArgs (by decide)

end LinearMCP
